import Mathlib

/-
Verification development for the media-dashboard repository (src/app.py).

The file shallowly embeds the data engine of the Streamlit app:
  * Python cell values and their truthiness (used by `or` defaults and
    `if not x` tests),
  * the column resolver `get_specific_col_id` (lines 28-34),
  * the cell reader `get_cell_value` (lines 36-44),
  * the recursive container walk `scan` inside `fetch_data_from_api`
    (lines 71-82),
  * the per-sheet row extraction loop (lines 98-121) and the per-sheet
    try/except recovery,
  * the session-state cache around `master_df` (lines 132-140),
  * the pandas data cleanup and the derived views: date coercion and the
    start-date fallback (lines 146-148), the overdue filter (line 238) and
    the seven-day urgent filter (lines 251-256).

Dates that pandas holds as Timestamps are embedded as civil day numbers
(`daysFromCivil`), so that strict order and day arithmetic match the
calendar; absent dates (NaT) are `Option.none`.
-/

namespace MediaDashboard

/-- A Python scalar as it appears in a Smartsheet cell or a DataFrame
entry: `None`, a string, an integer, or a boolean. -/
inductive PyVal : Type where
  | none : PyVal
  | str : String → PyVal
  | int : Int → PyVal
  | bool : Bool → PyVal
deriving DecidableEq

/-- Python truthiness of a scalar: `None`, `""`, `0` and `False` are
falsy, everything else is truthy. -/
def PyVal.truthy : PyVal → Bool
  | PyVal.none => false
  | PyVal.str s => !(s == "")
  | PyVal.int n => !(n == 0)
  | PyVal.bool b => b

/-- Python `x or d` on a cell value: the left operand when truthy,
otherwise the default. -/
def pyOr (v d : PyVal) : PyVal := if v.truthy then v else d

/-- Truthiness of a column id (`if not col_id` in `get_cell_value`):
`None` and `0` are falsy. -/
def colIdTruthy : Option Nat → Bool
  | Option.none => false
  | Option.some i => !(i == 0)

/-- Strip leading and trailing whitespace from a character list
(models Python `str.strip()`). -/
def trimChars (l : List Char) : List Char :=
  ((l.dropWhile Char.isWhitespace).reverse.dropWhile Char.isWhitespace).reverse

/-- Python `s.strip().lower()` as a character list: the normalized form used as
dictionary key by the column resolver. -/
def normChars (s : String) : List Char := (trimChars s.data).map Char.toLower

/-- Python `s.lower()` as a character list (no strip), used by the sheet-name
keyword test. -/
def lowerChars (s : String) : List Char := s.data.map Char.toLower

/-- Does the second list start with the first one? -/
def leadsWith : List Char → List Char → Bool
  | [], _ => true
  | _ :: _, [] => false
  | a :: as, b :: bs => a == b && leadsWith as bs

/-- Substring test on character lists (models Python `needle in hay`). -/
def containsSeq (needle : List Char) : List Char → Bool
  | [] => leadsWith needle []
  | c :: t => leadsWith needle (c :: t) || containsSeq needle t

/-- A column of a sheet schema: display title and column id. -/
structure Column where
  title : String
  id : Nat
deriving DecidableEq

/-- A cell of a row: owning column id, formatted display value and raw
value (Smartsheet cells always expose both attributes). -/
structure Cell where
  column_id : Nat
  display_value : PyVal
  value : PyVal
deriving DecidableEq

/-- A sheet row: its cells and its permalink. -/
structure Row where
  cells : List Cell
  permalink : String
deriving DecidableEq

/-- A fully fetched sheet: schema columns and rows. -/
structure SheetData where
  columns : List Column
  rows : List Row
deriving DecidableEq

/-- A lightweight sheet reference as listed inside a container. -/
structure SheetRef where
  id : Nat
  name : String
deriving DecidableEq

/-- An entry of `found_sheets`: the matched sheet reference together with
the display name of the container it was found in. -/
structure FoundItem where
  sheet : SheetRef
  context : String
deriving DecidableEq

/-- A container of the Smartsheet hierarchy (workspace or folder): display
name, directly contained sheets, and child containers.  The embedding
models the already-fetched tree, so child folders carry their full
contents. -/
inductive Container : Type where
  | mk : String → List SheetRef → List Container → Container

/-- Display name of a container. -/
def Container.cname : Container → String
  | Container.mk n _ _ => n

/-- Sheets directly contained in a container. -/
def Container.csheets : Container → List SheetRef
  | Container.mk _ s _ => s

/-- Child containers of a container. -/
def Container.cfolders : Container → List Container
  | Container.mk _ _ f => f

/-- The target keyword (configuration constant of src/app.py). -/
def TARGET_FILE_KEYWORD : String := "Project Plan"

/-- The test `TARGET_FILE_KEYWORD.lower() in s.lower()`: the sheet-name match test
of the walk. -/
def nameMatches (s : String) : Bool :=
  containsSeq (lowerChars TARGET_FILE_KEYWORD) (lowerChars s)

/-- The recursive `scan` of `fetch_data_from_api`: collect the directly
contained sheets whose name contains the keyword, tagged with the current
container's name, then recurse into every child folder. -/
def scan (c : Container) : List FoundItem :=
  match c with
  | Container.mk cname csheets cfolders =>
    ((csheets.filter (fun s => nameMatches s.name)).map
        (fun s => { sheet := s, context := cname }))
      ++ (cfolders.attach.map (fun x => scan x.1)).flatten
termination_by sizeOf c
decreasing_by
  have h := List.sizeOf_lt_of_mem x.2
  simp only [Container.mk.sizeOf_spec]
  omega

/-- All containers of a tree, in pre-order (the root first, then the
subtrees left to right). -/
def containersOf (c : Container) : List Container :=
  match c with
  | Container.mk cname csheets cfolders =>
    Container.mk cname csheets cfolders
      :: (cfolders.attach.map (fun x => containersOf x.1)).flatten
termination_by sizeOf c
decreasing_by
  have h := List.sizeOf_lt_of_mem x.2
  simp only [Container.mk.sizeOf_spec]
  omega

/-- Modelled from the spec (section 4.2 and section 8): the sheets a
single container contributes to the walk, namely its directly contained
sheets whose name matches the keyword, each tagged with this container's
display name as project context. -/
def taggedMatches (d : Container) : List FoundItem :=
  (d.csheets.filter (fun s => nameMatches s.name)).map
    (fun s => { sheet := s, context := d.cname })

/-- The dictionary `{c.title.strip().lower(): c.id for c in sheet.columns}`
as a lookup function: a fold over the schema in which a later column with
the same normalized title overwrites an earlier one. -/
def sheet_cols (cols : List Column) : List Char → Option Nat :=
  cols.foldl
    (fun m c => fun k => if k == normChars c.title then Option.some c.id else m k)
    (fun _ => Option.none)

/-- The resolver `get_specific_col_id` (src/app.py lines 28-34): try the target names
in order; return the id stored under the first normalized name present in
the schema dictionary, `None` if no alias matches. -/
def get_specific_col_id (sheet : SheetData) (target_names : List String) : Option Nat :=
  target_names.findSome? (fun name => sheet_cols sheet.columns (normChars name))

/-- The reader `get_cell_value` (src/app.py lines 36-44): `None` for a falsy column
id; otherwise locate the row's cell for that column and return its display
value when truthy, else its raw value when truthy, else `None`. -/
def get_cell_value (row : Row) (col_id : Option Nat) : PyVal :=
  match col_id with
  | Option.none => PyVal.none
  | Option.some cid =>
    if cid == 0 then PyVal.none
    else
      match row.cells.find? (fun c => c.column_id == cid) with
      | Option.none => PyVal.none
      | Option.some cell =>
        if cell.display_value.truthy then cell.display_value
        else if cell.value.truthy then cell.value
        else PyVal.none

/-- Alias list for the end-date column (line 102). -/
def end_date_aliases : List String := ["Finish Date", "Target End Date", "Finish"]

/-- Alias list for the start-date column (line 103). -/
def start_date_aliases : List String := ["Start Date", "Target Start Date", "Start"]

/-- Alias list for the status column (line 104). -/
def status_aliases : List String := ["Status", "% Complete", "Progress"]

/-- Alias list for the assignee column (line 105). -/
def assign_aliases : List String := ["Assigned To", "Project Owner", "Functional Owner"]

/-- Alias list for the task column (line 106). -/
def task_aliases : List String := ["Task Name", "Project Name", "Task", "Activity"]

/-- One record as appended to `all_rows`: a Python dict, embedded as the
ordered list of key/value pairs written in the source (lines 112-120). -/
abbrev RowDict := List (String × PyVal)

/-- The keys of a record dict, in insertion order. -/
def dictKeys (d : RowDict) : List String := d.map Prod.fst

/-- The dict literal built for one kept row (src/app.py lines 112-120). -/
def rowDict (context : String) (sheet : SheetData) (row : Row) : RowDict :=
  let end_date_id := get_specific_col_id sheet end_date_aliases
  let start_date_id := get_specific_col_id sheet start_date_aliases
  let status_id := get_specific_col_id sheet status_aliases
  let assign_id := get_specific_col_id sheet assign_aliases
  let task_id := get_specific_col_id sheet task_aliases
  [("Project", PyVal.str context),
   ("Task", get_cell_value row task_id),
   ("Status", pyOr (get_cell_value row status_id) (PyVal.str "Not Started")),
   ("Assigned To", pyOr (get_cell_value row assign_id) (PyVal.str "Unassigned")),
   ("Start Date", get_cell_value row start_date_id),
   ("End Date", get_cell_value row end_date_id),
   ("Link", PyVal.str row.permalink)]

/-- The row loop of `fetch_data_from_api` for one sheet (lines 108-120):
resolve the task cell; skip the row when it is falsy (`if not task_val:
continue`), otherwise append the record dict. -/
def extractSheet (context : String) (sheet : SheetData) : List RowDict :=
  sheet.rows.foldl
    (fun acc row =>
      let task_val := get_cell_value row (get_specific_col_id sheet task_aliases)
      if !task_val.truthy then acc else acc ++ [rowDict context sheet row])
    []

/-- The aggregated table: the list of record dicts. -/
abbrev Table := List RowDict

/-- The outer sheet loop of `fetch_data_from_api` (lines 94-121): for each
found sheet, fetch and extract it inside a try/except whose except clause
is `continue`, so a failing sheet contributes nothing and the loop goes
on. -/
def aggregateRows (fetchSheet : SheetRef → Except String SheetData)
    (found : List FoundItem) : Table :=
  found.foldl
    (fun acc item =>
      match fetchSheet item.sheet with
      | Except.ok sheet => acc ++ extractSheet item.context sheet
      | Except.error _ => acc)
    []

/-- The guard of line 137: the app fetches when `master_df` is absent from
session state or the cached frame is empty. -/
def needsFetch : Option Table → Bool
  | Option.none => true
  | Option.some t => t.isEmpty

/-- One rendering cycle over the cache (lines 137-138): run the fetch and
store its result exactly when `needsFetch` holds, otherwise keep the
cached table. -/
def renderCycle (cache : Option Table) (fetchResult : Table) : Option Table :=
  if needsFetch cache then Option.some fetchResult else cache

/-- The refresh button handler (lines 132-135): delete the cached table
(the rerun that follows then takes the `needsFetch` path). -/
def refreshAction (_cache : Option Table) : Option Table := Option.none

/-- Civil day number of a Gregorian date (years CE), monotone in the
calendar order; day arithmetic is addition.  Embeds pandas Timestamps,
which the cleanup normalizes to dates. -/
def daysFromCivil (y m d : Nat) : Nat :=
  let yy := if m ≤ 2 then y - 1 else y
  let era := yy / 400
  let yoe := yy % 400
  let mp := if 2 < m then m - 3 else m + 9
  let doy := (153 * mp + 2) / 5 + d - 1
  let doe := yoe * 365 + yoe / 4 - yoe / 100 + doy
  era * 146097 + doe

/-- A row of the raw DataFrame `df`, named after the record dict fields. -/
structure DfRow where
  project : PyVal
  task : PyVal
  status : PyVal
  assigned_to : PyVal
  start_date : PyVal
  end_date : PyVal
  link : PyVal
deriving DecidableEq

/-- A row of `working_df` after date coercion: dates are day numbers,
`Option.none` standing for NaT. -/
structure WRow where
  project : PyVal
  task : PyVal
  status : PyVal
  assigned_to : PyVal
  start_date : Option Nat
  end_date : Option Nat
  link : PyVal
deriving DecidableEq

/-- The data cleanup of lines 146-148, parameterized by the
`pd.to_datetime(errors=coerce)` parser: coerce End Date, coerce Start
Date, then fill a missing Start Date with the coerced End Date. -/
def cleanupRow (parseDate : PyVal → Option Nat) (r : DfRow) : WRow :=
  let e := parseDate r.end_date
  let s := parseDate r.start_date
  { project := r.project
    task := r.task
    status := r.status
    assigned_to := r.assigned_to
    start_date := match s with
      | Option.none => e
      | Option.some d => Option.some d
    end_date := e
    link := r.link }

/-- The terminal statuses `done_statuses` (line 152). -/
def done_statuses : List String :=
  ["Complete", "Done", "Shipped", "Cancelled", "Complete / Shipped"]

/-- The test `Status.isin(done_statuses)` for one row value. -/
def statusIsDone (v : PyVal) : Bool :=
  done_statuses.any (fun s => v == PyVal.str s)

/-- Pandas `series < t` on a possibly-NaT date: false at NaT. -/
def tsLt : Option Nat → Nat → Bool
  | Option.some x, b => decide (x < b)
  | Option.none, _ => false

/-- Pandas `series >= t` on a possibly-NaT date: false at NaT. -/
def tsGe : Option Nat → Nat → Bool
  | Option.some x, b => decide (b ≤ x)
  | Option.none, _ => false

/-- Pandas `series <= t` on a possibly-NaT date: false at NaT. -/
def tsLe : Option Nat → Nat → Bool
  | Option.some x, b => decide (x ≤ b)
  | Option.none, _ => false

/-- The frame `working_df.dropna(subset=[End Date])` (line 184): keep the rows
whose end date parsed. -/
def timelineOf (rows : List WRow) : List WRow :=
  rows.filter (fun r => r.end_date.isSome)

/-- The overdue filter of line 238:
`(End Date < today) & (~Status.isin(done_statuses))`. -/
def overdueView (today : Nat) (tdf : List WRow) : List WRow :=
  tdf.filter (fun r => tsLt r.end_date today && !statusIsDone r.status)

/-- The urgent filter of lines 251-256: end date in
`[today, today + 7 days]` and status not terminal. -/
def urgentView (today : Nat) (tdf : List WRow) : List WRow :=
  tdf.filter (fun r =>
    tsGe r.end_date today && tsLe r.end_date (today + 7) && !statusIsDone r.status)

/-- Example row holding only a task cell (no assignee, no dates). -/
def exTaskOnlyRow : Row :=
  { cells := [{ column_id := 10
                display_value := PyVal.str "Edit Video"
                value := PyVal.str "Edit Video" }]
    permalink := "link1" }

/-- Example sheet whose schema has only a task column. -/
def exTaskOnlySheet : SheetData :=
  { columns := [{ title := "Task Name", id := 10 }]
    rows := [exTaskOnlyRow] }

/-- Example sheet whose single row has an empty-string task cell. -/
def exEmptyTaskSheet : SheetData :=
  { columns := [{ title := "Task Name", id := 11 }]
    rows := [{ cells := [{ column_id := 11
                           display_value := PyVal.none
                           value := PyVal.str "" }]
               permalink := "link2" }] }

/-- Example sheet whose single row has a numeric 0 task cell. -/
def exZeroTaskSheet : SheetData :=
  { columns := [{ title := "Task", id := 7 }]
    rows := [{ cells := [{ column_id := 7
                           display_value := PyVal.none
                           value := PyVal.int 0 }]
               permalink := "link3" }] }

/-- Example sheet with a task column and a percent-complete column whose
cell holds 0. -/
def exZeroStatusSheet : SheetData :=
  { columns := [{ title := "Task Name", id := 1 }, { title := "% Complete", id := 2 }]
    rows := [{ cells := [{ column_id := 1
                           display_value := PyVal.str "T"
                           value := PyVal.str "T" },
                         { column_id := 2
                           display_value := PyVal.none
                           value := PyVal.int 0 }]
               permalink := "link4" }] }

/-- Example sheet whose schema holds two columns that normalize to the
same title `status`. -/
def exDupStatusSheet : SheetData :=
  { columns := [{ title := "Status", id := 21 }, { title := "  status ", id := 22 }]
    rows := [] }

/-- A non-empty cached table for the cache theorems. -/
def exCachedTable : Table := [[("Project", PyVal.str "Media")]]

/-- The five found sheets of the partial-failure example. -/
def exItem (n : Nat) : FoundItem :=
  { sheet := { id := n, name := "Project Plan" }, context := "Ctx" }

/-- A fetcher that fails on sheet id 3 and returns the task-only sheet
everywhere else. -/
def exFetch : SheetRef → Except String SheetData :=
  fun ref => if ref.id == 3 then Except.error "boom" else Except.ok exTaskOnlySheet

/-- A small date parser for the cleanup examples. -/
def exParse : PyVal → Option Nat :=
  fun v =>
    match v with
    | PyVal.str "2024-07-01" => Option.some (daysFromCivil 2024 7 1)
    | PyVal.str "2024-06-01" => Option.some (daysFromCivil 2024 6 1)
    | _ => Option.none

/-- A raw row with no start date and end date 2024-07-01. -/
def exNoStartDfRow : DfRow :=
  { project := PyVal.str "P"
    task := PyVal.str "T"
    status := PyVal.str "In Progress"
    assigned_to := PyVal.str "A"
    start_date := PyVal.none
    end_date := PyVal.str "2024-07-01"
    link := PyVal.str "L" }

/-- A raw row with start date 2024-06-01 and end date 2024-07-01. -/
def exWithStartDfRow : DfRow :=
  { project := PyVal.str "P"
    task := PyVal.str "T"
    status := PyVal.str "In Progress"
    assigned_to := PyVal.str "A"
    start_date := PyVal.str "2024-06-01"
    end_date := PyVal.str "2024-07-01"
    link := PyVal.str "L" }

/-- A working row with the given status and end date. -/
def exWRow (status : String) (endDay : Nat) : WRow :=
  { project := PyVal.str "P"
    task := PyVal.str "T"
    status := PyVal.str status
    assigned_to := PyVal.str "A"
    start_date := Option.some (daysFromCivil 2024 6 1)
    end_date := Option.some endDay
    link := PyVal.str "L" }

/-- Folding a keep-or-append step is filtering then mapping. -/
theorem foldl_filter_append {α β : Type} (p : α → Bool) (g : α → β) :
    ∀ (l : List α) (acc : List β),
      l.foldl (fun a x => if p x then a ++ [g x] else a) acc
        = acc ++ (l.filter p).map g := by
  intro l
  induction l with
  | nil => intro acc; simp
  | cons h t ih =>
    intro acc
    by_cases hp : p h = true
    · rw [List.foldl_cons, if_pos hp, ih, List.filter_cons_of_pos hp]
      simp
    · have hp' : p h = false := by
        cases hph : p h
        · rfl
        · exact absurd hph hp
      rw [List.foldl_cons, if_neg (by simp [hp']), ih, List.filter_cons_of_neg (by simp [hp'])]

/-- The per-sheet extraction is the filter of the truthy-task rows mapped
through the record-dict builder. -/
theorem extractSheet_eq (context : String) (sheet : SheetData) :
    extractSheet context sheet
      = (sheet.rows.filter
            (fun row =>
              (get_cell_value row (get_specific_col_id sheet task_aliases)).truthy)).map
          (rowDict context sheet) := by
  unfold extractSheet
  have hstep :
      (fun (acc : List RowDict) row =>
        if !(get_cell_value row (get_specific_col_id sheet task_aliases)).truthy
        then acc
        else acc ++ [rowDict context sheet row])
      = (fun (acc : List RowDict) row =>
        if (get_cell_value row (get_specific_col_id sheet task_aliases)).truthy
        then acc ++ [rowDict context sheet row]
        else acc) := by
    funext acc row
    cases h : (get_cell_value row (get_specific_col_id sheet task_aliases)).truthy
    · simp [h]
    · simp [h]
  rw [hstep]
  exact (foldl_filter_append _ _ sheet.rows []).trans (by simp)

/-- A resolved cell value is either `None` or truthy. -/
theorem gcv_none_or_truthy (row : Row) (cid : Option Nat) :
    get_cell_value row cid = PyVal.none ∨ (get_cell_value row cid).truthy = true := by
  unfold get_cell_value
  split
  · exact Or.inl rfl
  · split
    · exact Or.inl rfl
    · split
      · exact Or.inl rfl
      · split
        · rename_i h
          exact Or.inr h
        · split
          · rename_i h
            exact Or.inr h
          · exact Or.inl rfl

/-- Looking a key up in the schema dictionary yields the id of the last
schema column whose normalized title equals the key. -/
theorem sheet_cols_aux (cols : List Column) (k : List Char) :
    ∀ (m : List Char → Option Nat),
      (cols.foldl
        (fun m c => fun k => if k == normChars c.title then Option.some c.id else m k)
        m) k
      = match cols.reverse.find? (fun c => k == normChars c.title) with
        | Option.some c => Option.some c.id
        | Option.none => m k := by
  induction cols with
  | nil => intro m; simp
  | cons c cs ih =>
    intro m
    simp only [List.foldl_cons, List.reverse_cons, List.find?_append, ih]
    cases hf : cs.reverse.find? (fun c => k == normChars c.title) with
    | some c2 => simp [hf, Option.or]
    | none =>
      by_cases hk : (k == normChars c.title) = true
      · simp [hf, Option.or, List.find?, hk]
      · have hk' : (k == normChars c.title) = false := by
          cases hkc : (k == normChars c.title)
          · rfl
          · exact absurd hkc hk
        simp [hf, Option.or, List.find?, hk']

/-- The dictionary `sheet_cols` characterized: last matching schema column wins. -/
theorem sheet_cols_last_wins (cols : List Column) (k : List Char) :
    sheet_cols cols k
      = (cols.reverse.find? (fun c => k == normChars c.title)).map Column.id := by
  unfold sheet_cols
  rw [sheet_cols_aux]
  cases h : cols.reverse.find? (fun c => k == normChars c.title) <;> simp [h]

/-- Flattening then flat-mapping is flat-mapping inside. -/
theorem flatten_flatMap_comm {α β : Type} (L : List (List α)) (g : α → List β) :
    L.flatten.flatMap g = (L.map (fun l => l.flatMap g)).flatten := by
  induction L with
  | nil => simp
  | cons h t ih => simp [ih]

/-- The aggregation fold with an arbitrary accumulator. -/
theorem aggregateRows_aux (fetchSheet : SheetRef → Except String SheetData) :
    ∀ (l : List FoundItem) (acc : Table),
      l.foldl
        (fun acc item =>
          match fetchSheet item.sheet with
          | Except.ok sheet => acc ++ extractSheet item.context sheet
          | Except.error _ => acc)
        acc
      = acc ++ (l.map (fun item =>
          match fetchSheet item.sheet with
          | Except.ok sheet => extractSheet item.context sheet
          | Except.error _ => [])).flatten := by
  intro l
  induction l with
  | nil => intro acc; simp
  | cons h t ih =>
    intro acc
    simp only [List.foldl_cons, List.map_cons, List.flatten_cons]
    cases hf : fetchSheet h.sheet with
    | ok sheet => simp only [ih, List.append_assoc]
    | error e => simp only [ih, List.nil_append]

/-- The aggregated table is the concatenation of the extractions of the
successfully fetched sheets, in discovery order. -/
theorem aggregateRows_flatten (fetchSheet : SheetRef → Except String SheetData)
    (found : List FoundItem) :
    aggregateRows fetchSheet found
      = (found.map (fun item =>
          match fetchSheet item.sheet with
          | Except.ok sheet => extractSheet item.context sheet
          | Except.error _ => [])).flatten := by
  unfold aggregateRows
  exact (aggregateRows_aux fetchSheet found []).trans (by simp)

/-- The walk equals the per-container tagged matches flattened over the
pre-order container list. -/
theorem scan_eq_containersOf (c : Container) :
    scan c = (containersOf c).flatMap taggedMatches := by
  match c with
  | Container.mk n ss fs =>
    have ih : ∀ f ∈ fs, scan f = (containersOf f).flatMap taggedMatches := by
      intro f hf
      have hsz : sizeOf f < sizeOf (Container.mk n ss fs) := by
        have h := List.sizeOf_lt_of_mem hf
        simp only [Container.mk.sizeOf_spec]
        omega
      exact scan_eq_containersOf f
    rw [scan, containersOf]
    simp only [List.flatMap_cons, taggedMatches, Container.csheets, Container.cname]
    congr 1
    have hmap : fs.attach.map (fun x => scan x.1)
        = fs.attach.map (fun x => (containersOf x.1).flatMap taggedMatches) :=
      List.map_congr_left (fun x _ => ih x.1 x.2)
    rw [hmap, flatten_flatMap_comm, List.map_map]
    simp only [Function.comp_def]
termination_by sizeOf c
decreasing_by
  have h := List.sizeOf_lt_of_mem hf
  simp only [Container.mk.sizeOf_spec]
  omega

/-- Claim C1 is false as stated: the record the fetch emits for a kept row
has exactly the keys Project, Task, Status, Assigned To, Start Date,
End Date and Link — no key names the originating sheet, as this concrete
emitted record shows. -/
theorem fetch_record_lacks_sheet_name_field :
    extractSheet "Media" exTaskOnlySheet
      = [rowDict "Media" exTaskOnlySheet exTaskOnlyRow]
    ∧ dictKeys (rowDict "Media" exTaskOnlySheet exTaskOnlyRow)
        = ["Project", "Task", "Status", "Assigned To", "Start Date", "End Date", "Link"]
    ∧ (dictKeys (rowDict "Media" exTaskOnlySheet exTaskOnlyRow)).all
        (fun k => !containsSeq (lowerChars "sheet") (lowerChars k)) = true := by
  refine ⟨by decide, by decide, by decide⟩

/-- Claim C1 amended: every record emitted by the fetch carries the
project context alongside task, status, assigned_to, start_date, end_date
and the permalink — but no field for the originating sheet's name. -/
theorem fetch_record_fields :
    ∀ (context : String) (sheet : SheetData) (row : Row),
      dictKeys (rowDict context sheet row)
        = ["Project", "Task", "Status", "Assigned To", "Start Date", "End Date", "Link"]
      ∧ ("Project", PyVal.str context) ∈ rowDict context sheet row
      ∧ ("Link", PyVal.str row.permalink) ∈ rowDict context sheet row := by
  intro context sheet row
  refine ⟨rfl, ?_, ?_⟩ <;> simp [rowDict, dictKeys]

/-- Claim C2: a source row is emitted exactly when its resolved task value
is truthy, and a resolved cell value is truthy exactly when it is not
`None`; in particular the concrete row with task Edit Video, no assignee
and no dates is kept (with defaults filled in), and the concrete row whose
task cell is an empty string is skipped. -/
theorem rows_kept_iff_task_truthy :
    (∀ (context : String) (sheet : SheetData),
       extractSheet context sheet
         = (sheet.rows.filter
              (fun row =>
                (get_cell_value row (get_specific_col_id sheet task_aliases)).truthy)).map
             (rowDict context sheet))
    ∧ (∀ (row : Row) (cid : Option Nat),
        (get_cell_value row cid).truthy = false ↔ get_cell_value row cid = PyVal.none)
    ∧ extractSheet "Media" exTaskOnlySheet
        = [[("Project", PyVal.str "Media"), ("Task", PyVal.str "Edit Video"),
            ("Status", PyVal.str "Not Started"),
            ("Assigned To", PyVal.str "Unassigned"),
            ("Start Date", PyVal.none), ("End Date", PyVal.none),
            ("Link", PyVal.str "link1")]]
    ∧ extractSheet "Media" exEmptyTaskSheet = [] := by
  refine ⟨extractSheet_eq, ?_, by decide, by decide⟩
  intro row cid
  constructor
  · intro h
    rcases gcv_none_or_truthy row cid with h1 | h1
    · exact h1
    · rw [h1] at h
      cases h
  · intro h
    rw [h]
    rfl

/-- Claim C3 is false as stated: with a non-empty cached table and time
parameters past any claimed TTL (now 1000, fetchedAt 0, ttl 600, so
now - fetchedAt > ttl), a rendering cycle still does not recompute — the
cache guard never consults time. -/
theorem cache_ignores_ttl :
    (600 : Nat) < 1000 - 0
    ∧ needsFetch (Option.some exCachedTable) = false
    ∧ renderCycle (Option.some exCachedTable) [] = Option.some exCachedTable := by
  refine ⟨by decide, by decide, by decide⟩

/-- Claim C3 amended: the aggregated table is cached in session state with
no time-to-live: a rendering cycle with a non-empty cached table keeps it
and never re-triggers the fetch, a cycle with no cached table or an empty
one stores the fresh fetch result, and the explicit refresh action deletes
the cached table. -/
theorem cache_no_ttl_behavior :
    (∀ (t fetched : Table), t ≠ [] →
        renderCycle (Option.some t) fetched = Option.some t)
    ∧ (∀ fetched : Table, renderCycle Option.none fetched = Option.some fetched)
    ∧ (∀ fetched : Table, renderCycle (Option.some []) fetched = Option.some fetched)
    ∧ (∀ cache : Option Table, refreshAction cache = Option.none) := by
  refine ⟨?_, fun _ => rfl, fun _ => rfl, fun _ => rfl⟩
  intro t fetched ht
  have h : needsFetch (Option.some t) = false := by
    cases t with
    | nil => exact absurd rfl ht
    | cons a l => rfl
  simp [renderCycle, h]

/-- Witness for the amended cache behavior at a concrete non-empty
table. -/
theorem cache_no_ttl_behavior_witness :
    renderCycle (Option.some exCachedTable) [] = Option.some exCachedTable :=
  cache_no_ttl_behavior.1 exCachedTable [] (by decide)

/-- Claim C4: the walk returns exactly the matching sheets of the tree —
one entry per directly contained sheet of each container (at any depth)
whose name contains the keyword case-insensitively, tagged with that
container's display name as project context — and its length is the total
number of matching sheets. -/
theorem walk_finds_exactly_matching_sheets :
    ∀ c : Container,
      scan c = (containersOf c).flatMap taggedMatches
      ∧ (scan c).length
          = ((containersOf c).map
              (fun d => (d.csheets.filter (fun s => nameMatches s.name)).length)).sum := by
  intro c
  refine ⟨scan_eq_containersOf c, ?_⟩
  rw [scan_eq_containersOf c, List.length_flatMap]
  congr 1
  apply List.map_congr_left
  intro d _
  simp [taggedMatches, Function.comp_def]

/-- Claim C5: a row of the timeline frame is in the overdue view exactly
when its end date exists and is strictly before the (date-normalized)
current day and its status is not terminal; concretely, with now =
2024-06-10, the In Progress row due 2024-06-09 is overdue and the same row
with status Complete is not. -/
theorem overdue_iff_end_before_today_and_not_done :
    (∀ (today : Nat) (rows : List WRow) (r : WRow),
       r ∈ overdueView today (timelineOf rows) ↔
         r ∈ rows
           ∧ (∃ d, r.end_date = Option.some d ∧ d < today)
           ∧ statusIsDone r.status = false)
    ∧ overdueView (daysFromCivil 2024 6 10)
        [exWRow "In Progress" (daysFromCivil 2024 6 9)]
        = [exWRow "In Progress" (daysFromCivil 2024 6 9)]
    ∧ overdueView (daysFromCivil 2024 6 10)
        [exWRow "Complete" (daysFromCivil 2024 6 9)] = [] := by
  refine ⟨?_, by decide, by decide⟩
  intro today rows r
  simp only [overdueView, timelineOf, List.mem_filter, Bool.and_eq_true,
    Bool.not_eq_true']
  constructor
  · rintro ⟨⟨hr, _⟩, hlt, hnd⟩
    refine ⟨hr, ?_, hnd⟩
    cases he : r.end_date with
    | none =>
      rw [he] at hlt
      simp only [tsLt] at hlt
      exact Bool.noConfusion hlt
    | some d =>
      rw [he] at hlt
      simp only [tsLt, decide_eq_true_eq] at hlt
      exact ⟨d, rfl, hlt⟩
  · rintro ⟨hr, ⟨d, hd, hlt⟩, hnd⟩
    refine ⟨⟨hr, ?_⟩, ?_, hnd⟩
    · rw [hd]; rfl
    · rw [hd]
      simp only [tsLt, decide_eq_true_eq]
      exact hlt

/-- Claim C6: a row of the timeline frame is in the urgent view exactly
when its end date exists and lies in the inclusive window
[today, today + 7] and its status is not terminal; concretely, with now =
2024-06-10, end date 2024-06-16 is included, 2024-06-18 is excluded, and
2024-06-10 itself is included. -/
theorem urgent_iff_end_in_window_and_not_done :
    (∀ (today : Nat) (rows : List WRow) (r : WRow),
       r ∈ urgentView today (timelineOf rows) ↔
         r ∈ rows
           ∧ (∃ d, r.end_date = Option.some d ∧ today ≤ d ∧ d ≤ today + 7)
           ∧ statusIsDone r.status = false)
    ∧ urgentView (daysFromCivil 2024 6 10)
        [exWRow "In Progress" (daysFromCivil 2024 6 16)]
        = [exWRow "In Progress" (daysFromCivil 2024 6 16)]
    ∧ urgentView (daysFromCivil 2024 6 10)
        [exWRow "In Progress" (daysFromCivil 2024 6 18)] = []
    ∧ urgentView (daysFromCivil 2024 6 10)
        [exWRow "In Progress" (daysFromCivil 2024 6 10)]
        = [exWRow "In Progress" (daysFromCivil 2024 6 10)] := by
  refine ⟨?_, by decide, by decide, by decide⟩
  intro today rows r
  simp only [urgentView, timelineOf, List.mem_filter, Bool.and_eq_true,
    Bool.not_eq_true']
  constructor
  · rintro ⟨⟨hr, _⟩, ⟨hge, hle⟩, hnd⟩
    refine ⟨hr, ?_, hnd⟩
    cases he : r.end_date with
    | none =>
      rw [he] at hge
      simp only [tsGe] at hge
      exact Bool.noConfusion hge
    | some d =>
      rw [he] at hge
      rw [he] at hle
      simp only [tsGe, decide_eq_true_eq] at hge
      simp only [tsLe, decide_eq_true_eq] at hle
      exact ⟨d, rfl, hge, hle⟩
  · rintro ⟨hr, ⟨d, hd, hge, hle⟩, hnd⟩
    refine ⟨⟨hr, ?_⟩, ⟨?_, ?_⟩, hnd⟩
    · rw [hd]; rfl
    · rw [hd]
      simp only [tsGe, decide_eq_true_eq]
      exact hge
    · rw [hd]
      simp only [tsLe, decide_eq_true_eq]
      exact hle

/-- Claim C7: after the date cleanup, a row whose start date did not parse
inherits the parsed end date as start date, a row whose start date parsed
keeps it unchanged, and the end date itself is just the parsed end
date. -/
theorem missing_start_inherits_end :
    ∀ (parseDate : PyVal → Option Nat) (r : DfRow),
      (parseDate r.start_date = Option.none →
        (cleanupRow parseDate r).start_date = parseDate r.end_date)
      ∧ (∀ d : Nat, parseDate r.start_date = Option.some d →
          (cleanupRow parseDate r).start_date = Option.some d)
      ∧ (cleanupRow parseDate r).end_date = parseDate r.end_date := by
  intro parseDate r
  refine ⟨?_, ?_, rfl⟩
  · intro h
    simp [cleanupRow, h]
  · intro d h
    simp [cleanupRow, h]

/-- Witness for the start-date fallback: the concrete row without a start
date and with end date 2024-07-01 resolves its start date to the parsed
end date, and the concrete row with start date 2024-06-01 keeps it. -/
theorem missing_start_inherits_end_witness :
    (cleanupRow exParse exNoStartDfRow).start_date = exParse exNoStartDfRow.end_date
    ∧ (cleanupRow exParse exWithStartDfRow).start_date
        = Option.some (daysFromCivil 2024 6 1) :=
  ⟨(missing_start_inherits_end exParse exNoStartDfRow).1 (by decide),
   (missing_start_inherits_end exParse exWithStartDfRow).2.1
     (daysFromCivil 2024 6 1) (by decide)⟩

/-- Claim C8: the aggregated table is the concatenation of the
extractions of the successfully fetched sheets, and a sheet whose fetch or
extraction raises contributes nothing while every other sheet's rows
remain; the loop itself is total, so the fetch cycle never raises. -/
theorem failing_sheet_skipped :
    (∀ (fetchSheet : SheetRef → Except String SheetData) (found : List FoundItem),
       aggregateRows fetchSheet found
         = (found.map (fun item =>
             match fetchSheet item.sheet with
             | Except.ok sheet => extractSheet item.context sheet
             | Except.error _ => [])).flatten)
    ∧ (∀ (fetchSheet : SheetRef → Except String SheetData)
         (l1 l2 : List FoundItem) (bad : FoundItem) (e : String),
        fetchSheet bad.sheet = Except.error e →
        aggregateRows fetchSheet (l1 ++ bad :: l2)
          = aggregateRows fetchSheet l1 ++ aggregateRows fetchSheet l2) := by
  refine ⟨aggregateRows_flatten, ?_⟩
  intro fetchSheet l1 l2 bad e he
  rw [aggregateRows_flatten, aggregateRows_flatten, aggregateRows_flatten,
    List.map_append, List.map_cons, he, List.flatten_append, List.flatten_cons]
  simp

/-- Witness for the partial-failure property: among five found sheets the
third one's fetch fails, and the aggregated table equals the rows of the
remaining four. -/
theorem failing_sheet_skipped_witness :
    aggregateRows exFetch [exItem 1, exItem 2, exItem 3, exItem 4, exItem 5]
      = aggregateRows exFetch [exItem 1, exItem 2]
          ++ aggregateRows exFetch [exItem 4, exItem 5] :=
  failing_sheet_skipped.2 exFetch [exItem 1, exItem 2] [exItem 4, exItem 5]
    (exItem 3) "boom" rfl

/-- Claim C9: the resolver tries aliases in list order against the
normalized-title dictionary, and the dictionary maps each normalized title
to the id of the last schema column bearing it (later columns overwrite
earlier ones); concretely, with two columns both normalizing to the title
status, the second one's id is returned. -/
theorem column_resolution_priority :
    (∀ (sheet : SheetData) (target_names : List String),
       get_specific_col_id sheet target_names
         = target_names.findSome? (fun name =>
             (sheet.columns.reverse.find?
                 (fun c => normChars name == normChars c.title)).map Column.id))
    ∧ get_specific_col_id exDupStatusSheet status_aliases = Option.some 22 := by
  refine ⟨?_, by decide⟩
  intro sheet target_names
  unfold get_specific_col_id
  have hfun : (fun name => sheet_cols sheet.columns (normChars name))
      = (fun name =>
          (sheet.columns.reverse.find?
              (fun c => normChars name == normChars c.title)).map Column.id) := by
    funext name
    exact sheet_cols_last_wins sheet.columns (normChars name)
  rw [hfun]

/-- Claim C10: the cell reader returns `None` exactly when the column id
is falsy, the row has no cell for that column, or the found cell's display
value and raw value are both falsy; consequently the concrete row whose
task cell holds 0 is dropped, the row whose task cell holds an empty
string is dropped, and a row whose percent-complete status cell holds 0 is
emitted with the default status Not Started. -/
theorem cell_lookup_none_iff :
    (∀ (row : Row) (col_id : Option Nat),
       get_cell_value row col_id = PyVal.none ↔
         (colIdTruthy col_id = false
          ∨ (∃ cid, col_id = Option.some cid
              ∧ row.cells.find? (fun c => c.column_id == cid) = Option.none)
          ∨ (∃ cid cell, col_id = Option.some cid
              ∧ row.cells.find? (fun c => c.column_id == cid) = Option.some cell
              ∧ cell.display_value.truthy = false ∧ cell.value.truthy = false)))
    ∧ extractSheet "Media" exZeroTaskSheet = []
    ∧ extractSheet "Media" exEmptyTaskSheet = []
    ∧ extractSheet "Media" exZeroStatusSheet
        = [[("Project", PyVal.str "Media"), ("Task", PyVal.str "T"),
            ("Status", PyVal.str "Not Started"),
            ("Assigned To", PyVal.str "Unassigned"),
            ("Start Date", PyVal.none), ("End Date", PyVal.none),
            ("Link", PyVal.str "link4")]] := by
  refine ⟨?_, by decide, by decide, by decide⟩
  intro row col_id
  cases col_id with
  | none =>
    simp [get_cell_value, colIdTruthy]
  | some cid =>
    by_cases h0 : (cid == 0) = true
    · have hz : cid = 0 := by simpa using h0
      simp [get_cell_value, colIdTruthy, hz]
    · have h0' : (cid == 0) = false := by
        cases hc : (cid == 0)
        · rfl
        · exact absurd hc h0
      have hct : colIdTruthy (Option.some cid) = true := by
        simp [colIdTruthy, h0']
      have hgcv : get_cell_value row (Option.some cid)
          = (match row.cells.find? (fun c => c.column_id == cid) with
             | Option.none => PyVal.none
             | Option.some cell =>
               if cell.display_value.truthy then cell.display_value
               else if cell.value.truthy then cell.value
               else PyVal.none) := by
        simp [get_cell_value, h0']
      cases hf : row.cells.find? (fun c => c.column_id == cid) with
      | none =>
        simp only [hf] at hgcv
        constructor
        · intro _
          exact Or.inr (Or.inl ⟨cid, rfl, hf⟩)
        · intro _
          exact hgcv
      | some cell =>
        simp only [hf] at hgcv
        by_cases hd : cell.display_value.truthy = true
        · rw [if_pos hd] at hgcv
          constructor
          · intro h
            have hdn : cell.display_value = PyVal.none := hgcv.symm.trans h
            rw [hdn] at hd
            exact absurd hd (by simp [PyVal.truthy])
          · rintro (hcol | ⟨c1, hc1, hfind⟩ | ⟨c1, cl, hc1, hfind, hdv, _⟩)
            · rw [hct] at hcol
              exact Bool.noConfusion hcol
            · injection hc1 with hc1e
              subst hc1e
              rw [hf] at hfind
              exact Option.noConfusion hfind
            · injection hc1 with hc1e
              subst hc1e
              rw [hf] at hfind
              injection hfind with hcl
              subst hcl
              rw [hd] at hdv
              exact Bool.noConfusion hdv
        · have hd' : cell.display_value.truthy = false := by
            cases hdc : cell.display_value.truthy
            · rfl
            · exact absurd hdc hd
          rw [if_neg (by simp [hd'])] at hgcv
          by_cases hv : cell.value.truthy = true
          · rw [if_pos hv] at hgcv
            constructor
            · intro h
              have hvn : cell.value = PyVal.none := hgcv.symm.trans h
              rw [hvn] at hv
              exact absurd hv (by simp [PyVal.truthy])
            · rintro (hcol | ⟨c1, hc1, hfind⟩ | ⟨c1, cl, hc1, hfind, _, hvv⟩)
              · rw [hct] at hcol
                exact Bool.noConfusion hcol
              · injection hc1 with hc1e
                subst hc1e
                rw [hf] at hfind
                exact Option.noConfusion hfind
              · injection hc1 with hc1e
                subst hc1e
                rw [hf] at hfind
                injection hfind with hcl
                subst hcl
                rw [hv] at hvv
                exact Bool.noConfusion hvv
          · have hv' : cell.value.truthy = false := by
              cases hvc : cell.value.truthy
              · rfl
              · exact absurd hvc hv
            rw [if_neg (by simp [hv'])] at hgcv
            constructor
            · intro _
              exact Or.inr (Or.inr ⟨cid, cell, rfl, hf, hd', hv'⟩)
            · intro _
              exact hgcv

end MediaDashboard
